import Mathlib

/-!
Verification development for the core of the `voc` repository
(`src/services/geminiService.ts`): resilient image-byte retrieval,
analysis-result construction and vocab normalization, PCM audio decoding,
and sequential audio composition with a silence gap.

Modelling conventions:
- Machine floats never accumulate error here: every sample is an integer
  `v ∈ [-32768, 32767]` divided by `32768.0`, which is exact in IEEE-754
  binary32/binary64, and samples are only copied afterwards, never combined
  arithmetically.  Samples are therefore modelled as rationals (`ℚ`).
- A JS binary string (the output of `atob`) is modelled as its list of code
  points (`List Nat`); storing into a `Uint8Array` takes each value mod 256.
- Fallible operations (constructors that throw per the Web platform specs,
  rejected promises) return `Option` / `Except`.
- Network and AI-service behaviour is passed in as explicit oracles, since
  the code under test only orchestrates those calls.
-/

namespace Voc

/-- AudioBuffer as produced by `BaseAudioContext.createBuffer` and consumed by
the playback collaborator: channel count, sample rate, and the channel-0
sample data (mono throughout this codebase). -/
structure AudioBuffer where
  numberOfChannels : Nat
  sampleRate : Nat
  samples : List ℚ
deriving Repr, DecidableEq

/-- Model of `ctx.createBuffer(numChannels, frameCount, rate)`.  Per the Web
Audio API, a `NotSupportedError` is thrown when the channel count or the
frame count is zero (each argument must be in its nominal range, and `length`
must be at least 1); otherwise the buffer is allocated zero-filled. -/
def createBuffer (numChannels frameCount rate : Nat) : Option AudioBuffer :=
  if numChannels = 0 || frameCount = 0 then none
  else some { numberOfChannels := numChannels, sampleRate := rate,
              samples := List.replicate frameCount 0 }

/-- Reinterpretation of two bytes `lo`, `hi` (little-endian) as a signed
16-bit integer, as `Int16Array` element access performs on the underlying
buffer. -/
def toInt16 (lo hi : Nat) : Int :=
  let u := lo + 256 * hi
  if u < 32768 then (u : Int) else (u : Int) - 65536

/-- Model of `new Int16Array(bytes.buffer)`: groups the byte list into
little-endian signed 16-bit integers.  Per ECMAScript, the `Int16Array`
constructor throws a `RangeError` when the buffer's byte length is not a
multiple of the element size 2, hence `none` on odd-length input. -/
def bytesToInt16LE : List Nat → Option (List Int)
  | [] => some []
  | [_] => none
  | lo :: hi :: rest => (bytesToInt16LE rest).map (fun vs => toInt16 lo hi :: vs)

/-- Conversion of one decoded 16-bit integer to a float sample, `v / 32768.0`
(src/services/geminiService.ts:140). -/
def int16SampleToFloat (v : Int) : ℚ := (v : ℚ) / 32768

/-- Embedding of `decodePCM` (src/services/geminiService.ts:127-146), taking
the binary string produced by `atob` as a list of code points.  The bytes are
stored into a `Uint8Array` (mod 256), reinterpreted as little-endian signed
16-bit integers, each mapped to `v / 32768.0`, and wrapped in a 1-channel
24000 Hz buffer via `createBuffer` + `copyToChannel`. -/
def decodePCM (binaryString : List Nat) : Option AudioBuffer := do
  let bytes := binaryString.map (fun b => b % 256)
  let int16View ← bytesToInt16LE bytes
  let float32Data := int16View.map int16SampleToFloat
  let buffer ← createBuffer 1 float32Data.length 24000
  some { buffer with samples := float32Data }

/-- Model of `TypedArray.prototype.set(src, offset)` on channel data: writes
`src` into `target` starting at `offset`; per ECMAScript it throws a
`RangeError` when the source does not fit. -/
def typedArraySet (target src : List ℚ) (offset : Nat) : Option (List ℚ) :=
  if offset + src.length ≤ target.length then
    some (target.take offset ++ src ++ target.drop (offset + src.length))
  else none

/-- The hard-coded pause length of `generateSequentialPronunciation`:
3 seconds at 24000 Hz. -/
def pauseSamples : Nat := 3 * 24000

/-- Embedding of steps 4-6 of `generateSequentialPronunciation`
(src/services/geminiService.ts:205-219): allocate a zero-filled buffer of
length `len(buf1) + pauseSamples + len(buf2)`, copy `buf1` at offset 0 and
`buf2` at offset `len(buf1) + pauseSamples`; the gap stays zero. -/
def sequenceBuffers (buf1 buf2 : AudioBuffer) : Option AudioBuffer := do
  let totalLength := buf1.samples.length + pauseSamples + buf2.samples.length
  let combinedBuffer ← createBuffer 1 totalLength 24000
  let d1 ← typedArraySet combinedBuffer.samples buf1.samples 0
  let d2 ← typedArraySet d1 buf2.samples (buf1.samples.length + pauseSamples)
  some { combinedBuffer with samples := d2 }

/-- Embedding of `generatePronunciation` (src/services/geminiService.ts:172-184)
with the TTS service as an oracle from text to the decoded base64 payload
(`none` models "No audio data returned from API"). -/
def generatePronunciation (tts : String → Option (List Nat)) (text : String) :
    Option AudioBuffer := do
  let base64Audio ← tts text
  decodePCM base64Audio

/-- Embedding of `generateSequentialPronunciation`
(src/services/geminiService.ts:189-219): fetch both payloads, decode both,
and sequence them with the fixed pause. -/
def generateSequentialPronunciation (tts : String → Option (List Nat))
    (vocab sentence : String) : Option AudioBuffer := do
  let base64Vocab ← tts vocab
  let base64Sentence ← tts sentence
  let buf1 ← decodePCM base64Vocab
  let buf2 ← decodePCM base64Sentence
  sequenceBuffers buf1 buf2

/-- The two outbound synthesis requests of `generateSequentialPronunciation`:
the array literal `[fetchTTSBase64(vocab), fetchTTSBase64(sentence)]` is
evaluated eagerly, so both requests are issued, in argument order, before
either promise is awaited; the list depends only on the arguments, never on
any response. -/
def issuedSynthesisRequests (vocab sentence : String) : List String :=
  [vocab, sentence]

/-- Order in which the two in-flight synthesis responses settle. -/
inductive ArrivalOrder where
  | vocabFirst
  | sentenceFirst
deriving Repr, DecidableEq

/-- Model of `Promise.all` on the two-element request array: resolutions are
consumed in whichever order the network delivers them, but each result is
stored at the index of its request, so the resolved pair is positional. -/
def promiseAll2 (order : ArrivalOrder) (r1 r2 : Option (List Nat)) :
    Option (List Nat × List Nat) :=
  match order with
  | .vocabFirst =>
    match r1 with
    | none => none
    | some a => match r2 with
      | none => none
      | some b => some (a, b)
  | .sentenceFirst =>
    match r2 with
    | none => none
    | some b => match r1 with
      | none => none
      | some a => some (a, b)

/-- Embedding of `generateSequentialPronunciation` with the settlement order
of the two concurrent TTS calls made explicit, to state that the result does
not depend on it. -/
def generateSequentialPronunciationSched (tts : String → Option (List Nat))
    (order : ArrivalOrder) (vocab sentence : String) : Option AudioBuffer := do
  let (base64Vocab, base64Sentence) ← promiseAll2 order (tts vocab) (tts sentence)
  let buf1 ← decodePCM base64Vocab
  let buf2 ← decodePCM base64Sentence
  sequenceBuffers buf1 buf2

/-! ## Resource fetching and analysis (src/services/geminiService.ts:28-122) -/

/-- Error raised by the resource-fetch path when both transports fail. -/
inductive FetchError where
  | retrievalError (msg : String)
deriving Repr, DecidableEq

/-- The user-facing message thrown when both the direct fetch and the relay
fetch fail (src/services/geminiService.ts:49), naming the three possible
causes: invalid link, non-public file permissions, CORS refusal. -/
def userFacingFetchFailureMessage : String :=
  "無法讀取圖片檔案。原因可能是：1. 連結無效 2. 檔案權限未公開 3. 跨網域存取 (CORS) 被拒絕。"

/-- Embedding of `fileToGenerativePart` (src/services/geminiService.ts:28-52).
Each transport outcome is an oracle: `Except.error` covers both a rejected
`fetch` and a non-OK response (the code turns the latter into a thrown error
itself).  A direct success returns its bytes; on direct failure the relay is
tried; if both fail, the fixed user-facing error replaces the raw ones. -/
def fileToGenerativePart (direct relay : Except String (List Nat)) :
    Except FetchError (List Nat) :=
  match direct with
  | .ok blob => .ok blob
  | .error _ =>
    match relay with
    | .ok blob => .ok blob
    | .error _ => .error (.retrievalError userFacingFetchFailureMessage)

/-- The JSON object parsed from the vision service's response text, with the
three schema-required string fields. -/
structure ParsedResponse where
  vocab : String
  sentence : String
  reading : String
deriving Repr, DecidableEq

/-- AnalysisResult as returned to the caller (src/types.ts:9-14). -/
structure AnalysisResult where
  vocab : String
  sentence : String
  japanese : String
  reading : String
deriving Repr, DecidableEq

/-- Failure modes of `analyzeJapaneseImage`: a failed fetch, a response with
no text ("No response text generated"), or any other service/parse error. -/
inductive AnalyzeError where
  | fetchFailed (e : FetchError)
  | noResponseText
  | serviceError (msg : String)
deriving Repr, DecidableEq

/-- Character class of the cleanup regex `[\s\d\.①-⑳]`, whitespace
part: ECMAScript `\s` is WhiteSpace (TAB, VT, FF, SP, NBSP, ZWNBSP and the
Unicode Space_Separator category) together with the line terminators LF, CR,
LS, PS. -/
def isJsRegexWhitespace (c : Char) : Bool :=
  c = '\u0009' || c = '\u000A' || c = '\u000B' || c = '\u000C' || c = '\u000D' ||
  c = '\u0020' || c = '\u00A0' || c = '\u1680' ||
  ('\u2000' ≤ c && c ≤ '\u200A') ||
  c = '\u2028' || c = '\u2029' || c = '\u202F' || c = '\u205F' ||
  c = '\u3000' || c = '\uFEFF'

/-- Character class of the cleanup regex: whitespace, ASCII digits, a literal
period, or a circled-digit glyph ① through ⑳ (U+2460..U+2473). -/
def isVocabMarkerChar (c : Char) : Bool :=
  isJsRegexWhitespace c || ('0' ≤ c && c ≤ '9') || c = '.' ||
  ('\u2460' ≤ c && c ≤ '\u2473')

/-- Embedding of `parsed.vocab.replace(/^[\s\d\.①-⑳]+/, '')`
(src/services/geminiService.ts:107): the anchored greedy `+` matches exactly
the maximal run of class characters at the start of the string (no match when
the first character is outside the class), and replacing it with the empty
string drops that run. -/
def cleanVocabOf (s : String) : String :=
  ⟨s.data.dropWhile isVocabMarkerChar⟩

/-- Construction of the returned `AnalysisResult` from the parsed response
(src/services/geminiService.ts:105-114): `vocab` is cleaned, `sentence` and
`reading` pass through verbatim, and `japanese` is derived as
`cleanVocab + "\n" + sentence`. -/
def mkAnalysisResult (parsed : ParsedResponse) : AnalysisResult :=
  let cleanVocab := cleanVocabOf parsed.vocab
  { vocab := cleanVocab
    sentence := parsed.sentence
    reading := parsed.reading
    japanese := cleanVocab ++ "\n" ++ parsed.sentence }

/-- Embedding of `analyzeJapaneseImage` (src/services/geminiService.ts:57-122).
The vision service is an oracle on the fetched bytes: `Except.error` models a
thrown service/parse failure, `Except.ok none` a response without text, and
`Except.ok (some parsed)` a response whose text parsed into the schema.  The
surrounding try/catch only logs and rethrows, so every error propagates. -/
def analyzeJapaneseImage (direct relay : Except String (List Nat))
    (service : List Nat → Except String (Option ParsedResponse)) :
    Except AnalyzeError AnalysisResult :=
  match fileToGenerativePart direct relay with
  | .error e => .error (.fetchFailed e)
  | .ok base64Data =>
    match service base64Data with
    | .error msg => .error (.serviceError msg)
    | .ok none => .error .noResponseText
    | .ok (some parsed) => .ok (mkAnalysisResult parsed)

/-! ## Helper lemmas -/

theorem getD_map_mod (bs : List Nat) (i : Nat) :
    (bs.map (fun b => b % 256)).getD i 0 = bs.getD i 0 % 256 := by
  induction bs generalizing i with
  | nil => simp
  | cons x xs ih =>
    cases i with
    | zero => simp
    | succ j => simpa using ih j

theorem bytesToInt16LE_odd :
    ∀ bs : List Nat, bs.length % 2 = 1 → bytesToInt16LE bs = none
  | [], h => by simp at h
  | [_], _ => rfl
  | _ :: _ :: rest, h => by
    have hrest : rest.length % 2 = 1 := by
      simp only [List.length_cons] at h
      omega
    simp [bytesToInt16LE, bytesToInt16LE_odd rest hrest]

theorem bytesToInt16LE_length :
    ∀ (bs : List Nat) (vs : List Int), bytesToInt16LE bs = some vs →
      bs.length = 2 * vs.length
  | [], vs, h => by
    simp only [bytesToInt16LE, Option.some.injEq] at h
    subst h
    simp
  | [_], vs, h => by
    simp [bytesToInt16LE] at h
  | lo :: hi :: rest, vs, h => by
    simp only [bytesToInt16LE, Option.map_eq_some'] at h
    obtain ⟨ws, hws, rfl⟩ := h
    have := bytesToInt16LE_length rest ws hws
    simp only [List.length_cons, this]
    ring

theorem bytesToInt16LE_even (n : Nat) :
    ∀ bs : List Nat, bs.length = 2 * n →
      ∃ vs, bytesToInt16LE bs = some vs ∧ vs.length = n ∧
        ∀ i, i < n → vs.getD i 0 = toInt16 (bs.getD (2 * i) 0) (bs.getD (2 * i + 1) 0) := by
  induction n with
  | zero =>
    intro bs hbs
    have : bs = [] := List.length_eq_zero.mp (by omega)
    subst this
    exact ⟨[], rfl, rfl, fun i hi => absurd hi (Nat.not_lt_zero i)⟩
  | succ m ih =>
    intro bs hbs
    match bs, hbs with
    | lo :: hi :: rest, hbs =>
      have hrest : rest.length = 2 * m := by
        simp only [List.length_cons] at hbs
        omega
      obtain ⟨ws, hws, hlen, hidx⟩ := ih rest hrest
      refine ⟨toInt16 lo hi :: ws, ?_, by simp [hlen], ?_⟩
      · simp [bytesToInt16LE, hws]
      · intro i hi'
        cases i with
        | zero => simp
        | succ j =>
          have h2 : 2 * (j + 1) = 2 * j + 1 + 1 := by ring
          rw [h2]
          simpa using hidx j (by omega)

theorem toInt16_range (lo hi : Nat) :
    -32768 ≤ toInt16 (lo % 256) (hi % 256) ∧ toInt16 (lo % 256) (hi % 256) ≤ 32767 := by
  have hlo : lo % 256 < 256 := Nat.mod_lt lo (by omega)
  have hhi : hi % 256 < 256 := Nat.mod_lt hi (by omega)
  simp only [toInt16]
  split <;> omega

theorem sample_range (v : Int) (hlow : -32768 ≤ v) (hhigh : v ≤ 32767) :
    -1 ≤ (v : ℚ) / 32768 ∧ (v : ℚ) / 32768 ≤ 1 := by
  have h32 : (0 : ℚ) < 32768 := by norm_num
  constructor
  · rw [le_div_iff₀ h32]
    have : (-32768 : ℚ) ≤ (v : ℚ) := by exact_mod_cast hlow
    linarith
  · rw [div_le_one h32]
    have : (v : ℚ) ≤ 32767 := by exact_mod_cast hhigh
    linarith

theorem decodePCM_of_odd (bs : List Nat) (h : bs.length % 2 = 1) :
    decodePCM bs = none := by
  have : (bs.map (fun b => b % 256)).length % 2 = 1 := by simpa using h
  simp [decodePCM, bytesToInt16LE_odd _ this]

theorem decodePCM_unfold (bs : List Nat) :
    decodePCM bs = (bytesToInt16LE (bs.map (fun b => b % 256))).bind
      (fun vs =>
        (createBuffer 1 (vs.map int16SampleToFloat).length 24000).bind
          (fun buffer =>
            some { buffer with samples := vs.map int16SampleToFloat })) := rfl

theorem decodePCM_some (bs : List Nat) (buf : AudioBuffer)
    (h : decodePCM bs = some buf) :
    bs.length = 2 * buf.samples.length ∧ buf.numberOfChannels = 1 ∧
      buf.sampleRate = 24000 ∧ 0 < buf.samples.length := by
  rw [decodePCM_unfold] at h
  rcases hvs : bytesToInt16LE (bs.map (fun b => b % 256)) with _ | vs
  · rw [hvs] at h
    simp at h
  · rw [hvs] at h
    have hlen : bs.length = 2 * vs.length := by
      have := bytesToInt16LE_length _ vs hvs
      simpa using this
    rcases vs with _ | ⟨v, vs'⟩
    · simp [createBuffer] at h
    · simp only [Option.some_bind, createBuffer, List.length_map, List.length_cons] at h
      rw [if_neg (by simp)] at h
      simp only [Option.some_bind, Option.some.injEq] at h
      subst h
      refine ⟨?_, rfl, rfl, ?_⟩
      · simpa using hlen
      · simp

theorem getD_map_sample (vs : List Int) (i : Nat) :
    (vs.map int16SampleToFloat).getD i 0 = int16SampleToFloat (vs.getD i 0) := by
  induction vs generalizing i with
  | nil => simp [int16SampleToFloat]
  | cons x xs ih =>
    cases i with
    | zero => simp
    | succ j => simpa using ih j

theorem decodePCM_of_even (bs : List Nat) (n : Nat) (hbs : bs.length = 2 * n)
    (hn : 0 < n) :
    ∃ buf, decodePCM bs = some buf ∧ buf.numberOfChannels = 1 ∧
      buf.sampleRate = 24000 ∧ buf.samples.length = n ∧
      (∀ i, i < n → buf.samples.getD i 0 =
        ((toInt16 (bs.getD (2 * i) 0 % 256) (bs.getD (2 * i + 1) 0 % 256) : Int) : ℚ) / 32768) ∧
      (∀ q ∈ buf.samples, -1 ≤ q ∧ q ≤ 1) := by
  have hmap : (bs.map (fun b => b % 256)).length = 2 * n := by simpa using hbs
  obtain ⟨vs, hvs, hlen, hidx⟩ := bytesToInt16LE_even n (bs.map (fun b => b % 256)) hmap
  have hrange : ∀ v ∈ vs, -32768 ≤ v ∧ v ≤ 32767 := by
    intro v hv
    obtain ⟨i, hi⟩ := List.get_of_mem hv
    have hiv : vs.getD i.1 0 = v := by simp [List.getD_eq_getElem?_getD, hi.symm]
    have := hidx i.1 (by omega)
    rw [hiv] at this
    rw [this, getD_map_mod, getD_map_mod]
    exact ⟨(toInt16_range _ _).1, (toInt16_range _ _).2⟩
  refine ⟨⟨1, 24000, vs.map int16SampleToFloat⟩, ?_, rfl, rfl, by simpa using hlen, ?_, ?_⟩
  · rw [decodePCM_unfold, hvs, Option.some_bind]
    have hvnil : vs ≠ [] := by
      intro hcontra
      rw [hcontra] at hlen
      simp at hlen
      omega
    simp [createBuffer, hvnil]
  · intro i hi
    rw [getD_map_sample, hidx i hi, getD_map_mod, getD_map_mod]
    rfl
  · intro q hq
    simp only [List.mem_map] at hq
    obtain ⟨v, hv, rfl⟩ := hq
    exact sample_range v (hrange v hv).1 (hrange v hv).2

theorem sequenceBuffers_unfold (b1 b2 : AudioBuffer) :
    sequenceBuffers b1 b2 =
      (createBuffer 1 (b1.samples.length + pauseSamples + b2.samples.length) 24000).bind
        (fun combinedBuffer =>
          (typedArraySet combinedBuffer.samples b1.samples 0).bind
            (fun d1 =>
              (typedArraySet d1 b2.samples (b1.samples.length + pauseSamples)).bind
                (fun d2 => some { combinedBuffer with samples := d2 }))) := rfl

theorem sequenceBuffers_eq (b1 b2 : AudioBuffer) :
    sequenceBuffers b1 b2 =
      some ⟨1, 24000, b1.samples ++ List.replicate pauseSamples 0 ++ b2.samples⟩ := by
  rw [sequenceBuffers_unfold]
  have hcb : createBuffer 1 (b1.samples.length + pauseSamples + b2.samples.length) 24000 =
      some ⟨1, 24000,
        List.replicate (b1.samples.length + pauseSamples + b2.samples.length) 0⟩ := by
    have : b1.samples.length + pauseSamples + b2.samples.length ≠ 0 := by
      simp [pauseSamples]
    simp [createBuffer, this]
  rw [hcb, Option.some_bind]
  have h1 : typedArraySet
      (List.replicate (b1.samples.length + pauseSamples + b2.samples.length) 0)
      b1.samples 0 =
      some (b1.samples ++ List.replicate (pauseSamples + b2.samples.length) 0) := by
    rw [typedArraySet,
      if_pos (by simp only [List.length_replicate, Nat.zero_add]; omega)]
    have harith : b1.samples.length + pauseSamples + b2.samples.length -
        (0 + b1.samples.length) = pauseSamples + b2.samples.length := by omega
    rw [List.take_zero, List.nil_append, List.drop_replicate, harith]
  rw [h1, Option.some_bind]
  have h2 : typedArraySet
      (b1.samples ++ List.replicate (pauseSamples + b2.samples.length) 0)
      b2.samples (b1.samples.length + pauseSamples) =
      some (b1.samples ++ List.replicate pauseSamples 0 ++ b2.samples) := by
    rw [typedArraySet,
      if_pos (by simp only [List.length_append, List.length_replicate]; omega)]
    rw [List.take_append_eq_append_take, List.drop_append_eq_append_drop]
    rw [List.take_of_length_le (by omega),
      List.drop_eq_nil_of_le (by omega)]
    rw [List.take_replicate, List.drop_replicate]
    have hmin : min (b1.samples.length + pauseSamples - b1.samples.length)
        (pauseSamples + b2.samples.length) = pauseSamples := by omega
    have hdrop : b1.samples.length + pauseSamples + b2.samples.length -
        b1.samples.length = pauseSamples + b2.samples.length := by omega
    rw [hmin, hdrop]
    simp [Nat.sub_self, List.append_assoc]
  rw [h2, Option.some_bind]

theorem sequence_segments (b1 b2 out : AudioBuffer)
    (h : sequenceBuffers b1 b2 = some out) :
    out.numberOfChannels = 1 ∧ out.sampleRate = 24000 ∧
      out.samples.length = b1.samples.length + pauseSamples + b2.samples.length ∧
      out.samples.take b1.samples.length = b1.samples ∧
      (out.samples.drop b1.samples.length).take pauseSamples =
        List.replicate pauseSamples 0 ∧
      out.samples.drop (b1.samples.length + pauseSamples) = b2.samples := by
  rw [sequenceBuffers_eq, Option.some.injEq] at h
  subst h
  refine ⟨rfl, rfl, by simp [Nat.add_assoc], ?_, ?_, ?_⟩
  · rw [show b1.samples ++ List.replicate pauseSamples 0 ++ b2.samples =
      b1.samples ++ (List.replicate pauseSamples 0 ++ b2.samples) from by
        simp [List.append_assoc]]
    exact List.take_left b1.samples _
  · rw [show b1.samples ++ List.replicate pauseSamples 0 ++ b2.samples =
      b1.samples ++ (List.replicate pauseSamples 0 ++ b2.samples) from by
        simp [List.append_assoc]]
    rw [List.drop_left]
    exact List.take_left' (List.length_replicate _ _)
  · exact List.drop_left' (by simp)

theorem generatePronunciation_unfold (tts : String → Option (List Nat))
    (text : String) :
    generatePronunciation tts text = (tts text).bind decodePCM := rfl

theorem generateSequentialPronunciation_unfold (tts : String → Option (List Nat))
    (vocab sentence : String) :
    generateSequentialPronunciation tts vocab sentence =
      (tts vocab).bind (fun base64Vocab =>
        (tts sentence).bind (fun base64Sentence =>
          (decodePCM base64Vocab).bind (fun buf1 =>
            (decodePCM base64Sentence).bind (fun buf2 =>
              sequenceBuffers buf1 buf2)))) := rfl

theorem sched_eq_plain (tts : String → Option (List Nat)) (order : ArrivalOrder)
    (vocab sentence : String) :
    generateSequentialPronunciationSched tts order vocab sentence =
      generateSequentialPronunciation tts vocab sentence := by
  cases order <;>
    rcases hv : tts vocab with _ | pv <;>
    rcases hs : tts sentence with _ | ps <;>
      simp [generateSequentialPronunciationSched, generateSequentialPronunciation_unfold,
        promiseAll2, hv, hs]

/-! ## Claim theorems -/

/-- C1 (as amended): for every valid 16-bit PCM byte buffer of even positive
length `2n` with `n ≥ 1`, `decodePCM` yields a buffer of exactly `n` float
samples, where sample `i` equals the `i`-th little-endian signed 16-bit
integer divided by `32768` exactly, each sample lies in `[-1, 1]`, and
sample order is preserved. -/
theorem decodePCM_yields_exact_samples (bs : List Nat) (n : Nat)
    (hvalid : ∀ b ∈ bs, b < 256) (hlen : bs.length = 2 * n) (hn : 0 < n) :
    ∃ buf, decodePCM bs = some buf ∧
      buf.samples.length = n ∧
      (∀ i, i < n → buf.samples.getD i 0 =
        ((toInt16 (bs.getD (2 * i) 0) (bs.getD (2 * i + 1) 0) : Int) : ℚ) / 32768) ∧
      (∀ q ∈ buf.samples, -1 ≤ q ∧ q ≤ 1) := by
  have hgd : ∀ j, bs.getD j 0 < 256 := by
    intro j
    by_cases hj : j < bs.length
    · rw [List.getD_eq_getElem bs 0 hj]
      exact hvalid _ (List.getElem_mem hj)
    · rw [List.getD_eq_default bs 0 (by omega)]
      omega
  obtain ⟨buf, h1, _, _, h4, h5, h6⟩ := decodePCM_of_even bs n hlen hn
  refine ⟨buf, h1, h4, ?_, h6⟩
  intro i hi
  rw [h5 i hi, Nat.mod_eq_of_lt (hgd _), Nat.mod_eq_of_lt (hgd _)]

/-- C1 witness: the buffer `[0x00, 0x00, 0xFF, 0x7F]` (two samples) decodes to
two samples `0` and `32767 / 32768`, both in range. -/
theorem decodePCM_yields_exact_samples_witness :
    (∀ b ∈ ([0, 0, 255, 127] : List Nat), b < 256) ∧
      ([0, 0, 255, 127] : List Nat).length = 2 * 2 ∧ 0 < 2 ∧
      ∃ buf, decodePCM [0, 0, 255, 127] = some buf ∧
        buf.samples.length = 2 ∧
        (∀ i, i < 2 → buf.samples.getD i 0 =
          ((toInt16 (([0, 0, 255, 127] : List Nat).getD (2 * i) 0)
            (([0, 0, 255, 127] : List Nat).getD (2 * i + 1) 0) : Int) : ℚ) / 32768) ∧
        (∀ q ∈ buf.samples, -1 ≤ q ∧ q ≤ 1) :=
  ⟨by decide, rfl, by decide,
    decodePCM_yields_exact_samples [0, 0, 255, 127] 2 (by decide) rfl (by decide)⟩

/-- C1 counterexample: the empty byte buffer has even length `2 * 0`, yet
`decodePCM` does not yield a zero-sample buffer — `createBuffer` rejects a
zero-frame allocation (Web Audio `NotSupportedError`), so the decode throws. -/
theorem decodePCM_empty_counterexample :
    ([] : List Nat).length = 2 * 0 ∧ decodePCM ([] : List Nat) = none ∧
      ¬ ∃ buf, decodePCM ([] : List Nat) = some buf := by
  have hnone : decodePCM ([] : List Nat) = none := by decide
  refine ⟨rfl, hnone, ?_⟩
  rintro ⟨buf, hbuf⟩
  rw [hnone] at hbuf
  exact Option.noConfusion hbuf

/-- C2: sequencing two buffers of lengths `a` and `b` yields a buffer of
length exactly `a + 3·24000 + b` whose first `a` samples are the first
buffer's samples, whose next `3·24000` samples are all exactly `0`, and whose
last `b` samples are the second buffer's samples. -/
theorem sequencing_layout (b1 b2 : AudioBuffer) :
    ∃ out, sequenceBuffers b1 b2 = some out ∧
      out.samples.length = b1.samples.length + 3 * 24000 + b2.samples.length ∧
      out.samples.take b1.samples.length = b1.samples ∧
      (out.samples.drop b1.samples.length).take (3 * 24000) =
        List.replicate (3 * 24000) (0 : ℚ) ∧
      out.samples.drop (b1.samples.length + 3 * 24000) = b2.samples := by
  obtain ⟨_, _, h3, h4, h5, h6⟩ := sequence_segments b1 b2 _ (sequenceBuffers_eq b1 b2)
  exact ⟨_, sequenceBuffers_eq b1 b2, h3, h4, h5, h6⟩

/-- C3: vocab normalization strips from the start of the string exactly one
maximal run of whitespace, ASCII digits, periods and circled-digit glyphs
①..⑳, and nothing else; `"①単語"` and `"1. 単語"` normalize to `"単語"`,
and `"単語"` is unchanged. -/
theorem vocab_marker_stripping :
    (∀ s : String, ∃ p r : List Char, s.data = p ++ r ∧
        (∀ c ∈ p, isVocabMarkerChar c = true) ∧
        (∀ c, r.head? = some c → isVocabMarkerChar c = false) ∧
        cleanVocabOf s = ⟨r⟩) ∧
    cleanVocabOf "①単語" = "単語" ∧
    cleanVocabOf "1. 単語" = "単語" ∧
    cleanVocabOf "単語" = "単語" := by
  refine ⟨?_, by decide, by decide, by decide⟩
  intro s
  refine ⟨s.data.takeWhile isVocabMarkerChar, s.data.dropWhile isVocabMarkerChar,
    (List.takeWhile_append_dropWhile _ _).symm,
    fun c hc => List.mem_takeWhile_imp hc, ?_, rfl⟩
  intro c hc
  have hne : s.data.dropWhile isVocabMarkerChar ≠ [] := by
    intro h0
    rw [h0] at hc
    exact Option.noConfusion hc
  have hhead := List.head_dropWhile_not isVocabMarkerChar s.data hne
  rw [List.head?_eq_head hne] at hc
  rw [← Option.some.inj hc]
  exact hhead

/-- C4: for every successful analysis result, the `japanese` display field is
the normalized vocab, one line break, then the sentence — a derived field,
never set independently; for vocab `"単語"` and sentence `"例文です。"` it is
exactly `"単語\n例文です。"`. -/
theorem japanese_field_derived :
    (∀ (direct relay : Except String (List Nat))
        (service : List Nat → Except String (Option ParsedResponse))
        (r : AnalysisResult),
        analyzeJapaneseImage direct relay service = .ok r →
        r.japanese = r.vocab ++ "\n" ++ r.sentence) ∧
    (∀ parsed : ParsedResponse,
        (mkAnalysisResult parsed).japanese =
          cleanVocabOf parsed.vocab ++ "\n" ++ parsed.sentence) ∧
    (mkAnalysisResult ⟨"単語", "例文です。", "たんご"⟩).japanese = "単語\n例文です。" := by
  refine ⟨?_, fun parsed => rfl, by decide⟩
  intro direct relay service r h
  rcases hf : fileToGenerativePart direct relay with e | bytes
  · simp [analyzeJapaneseImage, hf] at h
  rcases hs : service bytes with msg | op
  · simp [analyzeJapaneseImage, hf, hs] at h
  rcases op with _ | parsed
  · simp [analyzeJapaneseImage, hf, hs] at h
  · have : r = mkAnalysisResult parsed := by
      simp [analyzeJapaneseImage, hf, hs] at h
      exact h.symm
    subst this
    rfl

/-- C4 witness: a concrete successful run whose `japanese` field is the vocab,
a line break, then the sentence. -/
theorem japanese_field_derived_witness :
    (mkAnalysisResult ⟨"①単語", "例文です。", "たんご"⟩).japanese =
      (mkAnalysisResult ⟨"①単語", "例文です。", "たんご"⟩).vocab ++ "\n" ++
        (mkAnalysisResult ⟨"①単語", "例文です。", "たんご"⟩).sentence :=
  japanese_field_derived.1 (.ok [1]) (.ok [])
    (fun _ => .ok (some ⟨"①単語", "例文です。", "たんご"⟩)) _ rfl

/-- C5: when the direct fetch fails and the relay fetch succeeds, the analysis
run is indistinguishable from one whose direct fetch succeeded with the same
bytes, and it completes successfully whenever the service does — the caller
never observes the intermediate direct-fetch failure. -/
theorem relay_fallback_success (errMsg : String) (bytes : List Nat)
    (relay2 : Except String (List Nat))
    (service : List Nat → Except String (Option ParsedResponse)) :
    analyzeJapaneseImage (.error errMsg) (.ok bytes) service =
      analyzeJapaneseImage (.ok bytes) relay2 service ∧
    (∀ parsed, service bytes = .ok (some parsed) →
      analyzeJapaneseImage (.error errMsg) (.ok bytes) service =
        .ok (mkAnalysisResult parsed)) := by
  constructor
  · rfl
  · intro parsed hsvc
    simp [analyzeJapaneseImage, fileToGenerativePart, hsvc]

/-- C5 witness: a concrete run where the direct fetch fails, the relay
delivers the bytes, and analysis succeeds. -/
theorem relay_fallback_success_witness :
    analyzeJapaneseImage (.error "network down") (.ok [7])
        (fun _ => .ok (some ⟨"語", "文", "よみ"⟩)) =
      analyzeJapaneseImage (.ok [7]) (.ok [7])
        (fun _ => .ok (some ⟨"語", "文", "よみ"⟩)) ∧
    analyzeJapaneseImage (.error "network down") (.ok [7])
        (fun _ => .ok (some ⟨"語", "文", "よみ"⟩)) =
      .ok (mkAnalysisResult ⟨"語", "文", "よみ"⟩) :=
  ⟨(relay_fallback_success "network down" [7] (.ok [7]) _).1,
   (relay_fallback_success "network down" [7] (.ok [7]) _).2 _ rfl⟩

/-- C6: when both the direct and the relay fetch fail, the fetch helper raises
the fixed user-facing retrieval error naming the three causes — independent of
the raw underlying error strings — and `analyzeJapaneseImage` propagates
exactly that error. -/
theorem both_fetches_fail_retrieval_error (e1 e2 : String)
    (service : List Nat → Except String (Option ParsedResponse)) :
    fileToGenerativePart (.error e1) (.error e2) =
      .error (.retrievalError userFacingFetchFailureMessage) ∧
    analyzeJapaneseImage (.error e1) (.error e2) service =
      .error (.fetchFailed (.retrievalError userFacingFetchFailureMessage)) :=
  ⟨rfl, rfl⟩

/-- C7: exactly two synthesis requests are issued, in argument order, their
issuance not depending on any response; the combined result is the same for
either settlement order, and its first segment is the decoded vocab audio and
its last segment the decoded sentence audio. -/
theorem sequential_request_order :
    (∀ vocab sentence : String,
        issuedSynthesisRequests vocab sentence = [vocab, sentence] ∧
        (issuedSynthesisRequests vocab sentence).length = 2) ∧
    (∀ (tts : String → Option (List Nat)) (order : ArrivalOrder)
        (vocab sentence : String),
        generateSequentialPronunciationSched tts order vocab sentence =
          generateSequentialPronunciation tts vocab sentence) ∧
    (∀ (tts : String → Option (List Nat)) (order : ArrivalOrder)
        (vocab sentence : String) (pv ps : List Nat) (bv bs2 : AudioBuffer),
        tts vocab = some pv → tts sentence = some ps →
        decodePCM pv = some bv → decodePCM ps = some bs2 →
        ∃ out, generateSequentialPronunciationSched tts order vocab sentence =
            some out ∧
          out.samples.take bv.samples.length = bv.samples ∧
          out.samples.drop (bv.samples.length + pauseSamples) = bs2.samples) := by
  refine ⟨fun v s => ⟨rfl, rfl⟩, sched_eq_plain, ?_⟩
  intro tts order vocab sentence pv ps bv bs2 hv hs hdv hds
  rw [sched_eq_plain, generateSequentialPronunciation_unfold, hv, Option.some_bind,
    hs, Option.some_bind, hdv, Option.some_bind, hds, Option.some_bind]
  obtain ⟨_, _, _, h4, _, h6⟩ := sequence_segments bv bs2 _ (sequenceBuffers_eq bv bs2)
  exact ⟨_, sequenceBuffers_eq bv bs2, h4, h6⟩

/-- C7 witness: with a service that answers `[0x00, 0x00]` for the vocab and
`[0xFF, 0x7F]` for the sentence, the sentence-first settlement order still
puts the vocab's decoded sample first and the sentence's decoded sample last. -/
theorem sequential_request_order_witness :
    ∃ out,
      generateSequentialPronunciationSched
          (fun t => if t = "単語" then some [0, 0] else some [255, 127])
          .sentenceFirst "単語" "例文です。" = some out ∧
        out.samples.take (⟨1, 24000, [0]⟩ : AudioBuffer).samples.length =
          (⟨1, 24000, [0]⟩ : AudioBuffer).samples ∧
        out.samples.drop
            ((⟨1, 24000, [0]⟩ : AudioBuffer).samples.length + pauseSamples) =
          (⟨1, 24000, [(32767 : ℚ) / 32768]⟩ : AudioBuffer).samples :=
  sequential_request_order.2.2
    (fun t => if t = "単語" then some [0, 0] else some [255, 127])
    .sentenceFirst "単語" "例文です。" [0, 0] [255, 127]
    ⟨1, 24000, [0]⟩ ⟨1, 24000, [(32767 : ℚ) / 32768]⟩
    (by decide) (by decide)
    (by simp [decodePCM_unfold, bytesToInt16LE, toInt16, createBuffer, int16SampleToFloat])
    (by simp [decodePCM_unfold, bytesToInt16LE, toInt16, createBuffer, int16SampleToFloat])

/-- C8: whatever parsed response the service returns, the analysis result
passes `sentence` and `reading` through verbatim; only `vocab` is altered, by
the leading-marker cleanup. -/
theorem service_fields_pass_through (direct relay : Except String (List Nat))
    (service : List Nat → Except String (Option ParsedResponse))
    (bytes : List Nat) (parsed : ParsedResponse)
    (hfetch : fileToGenerativePart direct relay = .ok bytes)
    (hsvc : service bytes = .ok (some parsed)) :
    analyzeJapaneseImage direct relay service = .ok (mkAnalysisResult parsed) ∧
    (mkAnalysisResult parsed).sentence = parsed.sentence ∧
    (mkAnalysisResult parsed).reading = parsed.reading ∧
    (mkAnalysisResult parsed).vocab = cleanVocabOf parsed.vocab := by
  refine ⟨?_, rfl, rfl, rfl⟩
  simp [analyzeJapaneseImage, hfetch, hsvc]

/-- C8 witness: a concrete run where the service mis-segments (empty sentence)
and the empty string is passed through verbatim rather than locally
corrected. -/
theorem service_fields_pass_through_witness :
    analyzeJapaneseImage (.ok [9]) (.ok [])
        (fun _ => .ok (some ⟨"①単語", "", "よみ"⟩)) =
      .ok (mkAnalysisResult ⟨"①単語", "", "よみ"⟩) ∧
    (mkAnalysisResult ⟨"①単語", "", "よみ"⟩).sentence = "" ∧
    (mkAnalysisResult ⟨"①単語", "", "よみ"⟩).reading = "よみ" ∧
    (mkAnalysisResult ⟨"①単語", "", "よみ"⟩).vocab = cleanVocabOf "①単語" :=
  service_fields_pass_through (.ok [9]) (.ok [])
    (fun _ => .ok (some ⟨"①単語", "", "よみ"⟩)) [9] ⟨"①単語", "", "よみ"⟩ rfl rfl

/-- C9: every buffer returned by `generatePronunciation` or
`generateSequentialPronunciation` has channel count 1 and sample rate 24000,
and any two decoded buffers agree on sample rate and channel count, so the
sequencing step can never see mismatched inputs. -/
theorem audio_format_invariant :
    (∀ (tts : String → Option (List Nat)) (text : String) (buf : AudioBuffer),
        generatePronunciation tts text = some buf →
        buf.numberOfChannels = 1 ∧ buf.sampleRate = 24000) ∧
    (∀ (tts : String → Option (List Nat)) (vocab sentence : String)
        (buf : AudioBuffer),
        generateSequentialPronunciation tts vocab sentence = some buf →
        buf.numberOfChannels = 1 ∧ buf.sampleRate = 24000) ∧
    (∀ (p1 p2 : List Nat) (b1 b2 : AudioBuffer),
        decodePCM p1 = some b1 → decodePCM p2 = some b2 →
        b1.sampleRate = b2.sampleRate ∧
        b1.numberOfChannels = b2.numberOfChannels) := by
  refine ⟨?_, ?_, ?_⟩
  · intro tts text buf h
    rw [generatePronunciation_unfold] at h
    rcases htts : tts text with _ | payload
    · rw [htts] at h
      exact Option.noConfusion h
    · rw [htts, Option.some_bind] at h
      obtain ⟨_, hch, hsr, _⟩ := decodePCM_some _ _ h
      exact ⟨hch, hsr⟩
  · intro tts vocab sentence buf h
    rw [generateSequentialPronunciation_unfold] at h
    rcases hv : tts vocab with _ | pv
    · rw [hv] at h
      exact Option.noConfusion h
    rw [hv, Option.some_bind] at h
    rcases hs : tts sentence with _ | ps
    · rw [hs] at h
      exact Option.noConfusion h
    rw [hs, Option.some_bind] at h
    rcases hd1 : decodePCM pv with _ | bufv
    · rw [hd1] at h
      exact Option.noConfusion h
    rw [hd1, Option.some_bind] at h
    rcases hd2 : decodePCM ps with _ | bufs
    · rw [hd2] at h
      exact Option.noConfusion h
    rw [hd2, Option.some_bind] at h
    obtain ⟨hch, hsr, _, _, _, _⟩ := sequence_segments _ _ _ h
    exact ⟨hch, hsr⟩
  · intro p1 p2 b1 b2 h1 h2
    obtain ⟨_, hch1, hsr1, _⟩ := decodePCM_some _ _ h1
    obtain ⟨_, hch2, hsr2, _⟩ := decodePCM_some _ _ h2
    rw [hsr1, hsr2, hch1, hch2]
    exact ⟨rfl, rfl⟩

/-- C9 witness: a concrete single and sequential pronunciation both come back
as mono 24000 Hz buffers, and two concrete decoded buffers agree on format. -/
theorem audio_format_invariant_witness :
    ((⟨1, 24000, [0]⟩ : AudioBuffer).numberOfChannels = 1 ∧
      (⟨1, 24000, [0]⟩ : AudioBuffer).sampleRate = 24000) ∧
    ((⟨1, 24000, ([0] : List ℚ) ++ List.replicate pauseSamples 0 ++ [0]⟩ :
        AudioBuffer).numberOfChannels = 1 ∧
      (⟨1, 24000, ([0] : List ℚ) ++ List.replicate pauseSamples 0 ++ [0]⟩ :
        AudioBuffer).sampleRate = 24000) ∧
    ((⟨1, 24000, [0]⟩ : AudioBuffer).sampleRate =
        (⟨1, 24000, [(32767 : ℚ) / 32768]⟩ : AudioBuffer).sampleRate ∧
      (⟨1, 24000, [0]⟩ : AudioBuffer).numberOfChannels =
        (⟨1, 24000, [(32767 : ℚ) / 32768]⟩ : AudioBuffer).numberOfChannels) := by
  have hdec0 : decodePCM [0, 0] = some ⟨1, 24000, [0]⟩ := by
    simp [decodePCM_unfold, bytesToInt16LE, toInt16, createBuffer, int16SampleToFloat]
  have hdec1 : decodePCM [255, 127] = some ⟨1, 24000, [(32767 : ℚ) / 32768]⟩ := by
    simp [decodePCM_unfold, bytesToInt16LE, toInt16, createBuffer, int16SampleToFloat]
  refine ⟨audio_format_invariant.1 (fun _ => some [0, 0]) "語" _ ?_,
    audio_format_invariant.2.1 (fun _ => some [0, 0]) "語" "文" _ ?_,
    audio_format_invariant.2.2 [0, 0] [255, 127] _ _ hdec0 hdec1⟩
  · rw [generatePronunciation_unfold, Option.some_bind]
    exact hdec0
  · rw [generateSequentialPronunciation_unfold, Option.some_bind, Option.some_bind,
      hdec0, Option.some_bind, Option.some_bind]
    exact sequenceBuffers_eq _ _

/-- C10: on every odd-length byte buffer `decodePCM` throws rather than
truncating, and whenever it does return a buffer the byte length was even and
the buffer holds exactly `byteLength / 2` samples. -/
theorem decodePCM_parity_safety :
    (∀ bs : List Nat, bs.length % 2 = 1 → decodePCM bs = none) ∧
    (∀ (bs : List Nat) (buf : AudioBuffer), decodePCM bs = some buf →
      bs.length % 2 = 0 ∧ buf.samples.length = bs.length / 2) := by
  refine ⟨decodePCM_of_odd, ?_⟩
  intro bs buf h
  obtain ⟨hl, _, _, _⟩ := decodePCM_some bs buf h
  omega

/-- C10 witness: a one-byte payload is rejected, and the two-byte payload
`[0x00, 0x00]` yields exactly one sample. -/
theorem decodePCM_parity_safety_witness :
    decodePCM [7] = none ∧
      (([0, 0] : List Nat).length % 2 = 0 ∧
        (⟨1, 24000, [0]⟩ : AudioBuffer).samples.length =
          ([0, 0] : List Nat).length / 2) :=
  ⟨decodePCM_parity_safety.1 [7] (by decide),
   decodePCM_parity_safety.2 [0, 0] ⟨1, 24000, [0]⟩ (by
     simp [decodePCM_unfold, bytesToInt16LE, toInt16, createBuffer, int16SampleToFloat])⟩

end Voc
